import Mathlib

/-
Verification of the admin control-panel core of the review-site repository:
the authorization gate, the service approval state machine, the user role
model, and the admin query/command surface, together with the status-badge
mapping and the promote-button rendering rule of the admin dashboard page.
-/

namespace ReviewSite

/-- Approval lifecycle states of a service (spec §3: enum PENDING, APPROVED, REJECTED). -/
inductive ApprovalStatus where
  | PENDING
  | APPROVED
  | REJECTED
deriving DecidableEq, BEq, Repr

/-- User roles (spec §3 and the frontend `Role` enum: STANDARD and ADMIN). -/
inductive Role where
  | STANDARD
  | ADMIN
deriving DecidableEq, BEq, Repr

/-- A service entity (spec §3): id, descriptive fields, approval status, featured flag. -/
structure Service where
  id : Nat
  name : String
  providerName : String
  approvalStatus : ApprovalStatus
  featured : Bool
deriving DecidableEq, BEq, Repr

/-- A user entity (spec §3): id, name, email, role. -/
structure User where
  id : Nat
  name : String
  email : String
  role : Role
deriving DecidableEq, BEq, Repr

/-- The persistent store owning both entity collections (spec §3, Ownership). -/
structure Store where
  services : List Service
  users : List User
deriving DecidableEq, BEq, Repr

/-- Error taxonomy of the admin surface (spec §7). -/
inductive ApiError where
  | Unauthenticated
  | Forbidden
  | NotFound
  | ValidationError
  | TransientStoreError
deriving DecidableEq, BEq, Repr

/-- HTTP status code carried by each error class (spec §6: 401 unauthenticated,
403 wrong role, 404 missing entity; 400/503 for the remaining classes). -/
def statusCode : ApiError → Nat
  | .Unauthenticated => 401
  | .Forbidden => 403
  | .NotFound => 404
  | .ValidationError => 400
  | .TransientStoreError => 503

/-- Look up a service by id in the store's service table. -/
def findService (services : List Service) (serviceId : Nat) : Option Service :=
  services.find? (fun s => s.id == serviceId)

/-- Look up a user by id in the store's user table. -/
def findUser (users : List User) (userId : Nat) : Option User :=
  users.find? (fun u => u.id == userId)

/-- Modelled from the spec: the controller function `approveService` is imported by
the router but its source is not part of the provided files. Spec §4.2: look up the
service by id; fail with NotFound if absent; set approvalStatus = APPROVED regardless
of current state; return the updated entity. The store update touches only the row
with the given id and only its approvalStatus field. -/
def approveService (st : Store) (serviceId : Nat) : Except ApiError Service × Store :=
  match findService st.services serviceId with
  | none => (.error .NotFound, st)
  | some s =>
      (.ok { s with approvalStatus := .APPROVED },
       { st with services :=
           st.services.map (fun t =>
             if t.id == serviceId then { t with approvalStatus := .APPROVED } else t) })

/-- Modelled from the spec: the controller function `rejectService` is imported by
the router but its source is not part of the provided files. Spec §4.2: look up the
service by id; fail with NotFound if absent; set approvalStatus = REJECTED regardless
of current state; return the updated entity. -/
def rejectService (st : Store) (serviceId : Nat) : Except ApiError Service × Store :=
  match findService st.services serviceId with
  | none => (.error .NotFound, st)
  | some s =>
      (.ok { s with approvalStatus := .REJECTED },
       { st with services :=
           st.services.map (fun t =>
             if t.id == serviceId then { t with approvalStatus := .REJECTED } else t) })

/-- Modelled from the spec: the controller function `toggleFeaturedStatus` is imported
by the router but its source is not part of the provided files. Spec §4.2
`setFeatured(serviceId, value)`: look up the service by id; fail with NotFound if
absent; set featured = value, independent of approvalStatus; return the updated
entity. -/
def toggleFeaturedStatus (st : Store) (serviceId : Nat) (value : Bool) :
    Except ApiError Service × Store :=
  match findService st.services serviceId with
  | none => (.error .NotFound, st)
  | some s =>
      (.ok { s with featured := value },
       { st with services :=
           st.services.map (fun t =>
             if t.id == serviceId then { t with featured := value } else t) })

/-- Modelled from the spec: the controller function `promoteUserToAdmin` is imported
by the router but its source is not part of the provided files. Spec §4.3: look up
the user by id; fail with NotFound if absent; set role = ADMIN (an idempotent
overwrite, a no-op on an already-ADMIN user); return the updated user including its
name for confirmation messaging. -/
def promoteUserToAdmin (st : Store) (userId : Nat) : Except ApiError User × Store :=
  match findUser st.users userId with
  | none => (.error .NotFound, st)
  | some u =>
      (.ok { u with role := .ADMIN },
       { st with users :=
           st.users.map (fun t =>
             if t.id == userId then { t with role := .ADMIN } else t) })

/-- Modelled from the spec: the controller function `getServiceByIdForAdmin` is
imported by the router but its source is not part of the provided files. Spec §6:
single service detail, 404 when missing; read-only. -/
def getServiceByIdForAdmin (st : Store) (serviceId : Nat) : Except ApiError Service :=
  match findService st.services serviceId with
  | none => .error .NotFound
  | some s => .ok s

/-- Credential carried by a request: absent, invalid (malformed/expired), or a valid
token resolving to an identity with a role (spec §4.1). -/
inductive Credential where
  | missing
  | invalid
  | valid (role : Role)
deriving DecidableEq, BEq, Repr

/-- Modelled from the spec: the `protect` and `checkRole` middleware are imported by
the router but their sources are not part of the provided files. Spec §4.1: resolve
the identity, verify the credential; a missing/invalid credential yields
Unauthenticated, a valid identity whose role is outside the required set yields
Forbidden, otherwise the resolved role is admitted. -/
def authGate (c : Credential) (required : List Role) : Except ApiError Role :=
  match c with
  | .missing => .error .Unauthenticated
  | .invalid => .error .Unauthenticated
  | .valid r => if required.contains r then .ok r else .error .Forbidden

/-- The admin endpoints exposed by the router (src/unnamed/part_000 lines 11-18). -/
inductive AdminOp where
  | listServices
  | approveSvc (serviceId : Nat)
  | rejectSvc (serviceId : Nat)
  | listUsers
  | promoteUsr (userId : Nat)
  | featureSvc (serviceId : Nat) (value : Bool)
  | getService (serviceId : Nat)
deriving DecidableEq, BEq, Repr

/-- Response payloads of the admin surface (spec §6: JSON bodies). -/
inductive Response where
  | serviceList (ss : List Service)
  | serviceOne (s : Service)
  | userList (us : List User)
  | userOne (u : User)
deriving DecidableEq, BEq, Repr

/-- Dispatch of an already-authorized admin operation to its controller
(src/unnamed/part_000 lines 11-18; list endpoints are read-only, spec §4.4). -/
def runOp (op : AdminOp) (st : Store) : Except ApiError Response × Store :=
  match op with
  | .listServices => (.ok (.serviceList st.services), st)
  | .approveSvc i =>
      let r := approveService st i
      (r.1.map .serviceOne, r.2)
  | .rejectSvc i =>
      let r := rejectService st i
      (r.1.map .serviceOne, r.2)
  | .listUsers => (.ok (.userList st.users), st)
  | .promoteUsr i =>
      let r := promoteUserToAdmin st i
      (r.1.map .userOne, r.2)
  | .featureSvc i v =>
      let r := toggleFeaturedStatus st i v
      (r.1.map .serviceOne, r.2)
  | .getService i => ((getServiceByIdForAdmin st i).map .serviceOne, st)

/-- Modelled from the spec: router.use(protect, checkRole([Role.ADMIN])) guards every
admin route (src/unnamed/part_000 line 9); authorization failures short-circuit
before any state lookup (spec §7). -/
def handleAdminRequest (c : Credential) (op : AdminOp) (st : Store) :
    Except ApiError Response × Store :=
  match authGate c [Role.ADMIN] with
  | .error e => (.error e, st)
  | .ok _ => runOp op st

/-- A sequence of admin operations threaded through the store, discarding responses. -/
def runOps (ops : List AdminOp) (st : Store) : Store :=
  ops.foldl (fun s op => (runOp op s).2) st

/-- The status-to-badge-variant mapping of the service table
(src/frontend/src/pages/AdminDashboard.tsx lines 47-54): a switch on the status
string with a default case. -/
def getStatusVariant (status : String) : String :=
  if status = "APPROVED" then "success"
  else if status = "PENDING" then "default"
  else if status = "REJECTED" then "destructive"
  else "secondary"

/-- An action control rendered in a table row of the user-management tab. -/
inductive RowAction where
  | promoteAction (userId : Nat)
deriving DecidableEq, BEq, Repr

/-- The actions cell of a user row (AdminDashboard.tsx lines 125-131): the promote
button is rendered exactly when user.role !== Role.ADMIN. -/
def renderUserRowActions (u : User) : List RowAction :=
  if u.role ≠ Role.ADMIN then [RowAction.promoteAction u.id] else []

/-- The badge variant of the role cell of a user row (AdminDashboard.tsx line 124). -/
def roleBadgeVariant (u : User) : String :=
  if u.role = Role.ADMIN then "destructive" else "secondary"

/-- The actions column of the user-management table (AdminDashboard.tsx lines
119-133): one actions cell per user, in order. -/
def renderUserTable (users : List User) : List (List RowAction) :=
  users.map renderUserRowActions

/-- A guarded pointwise update commutes with find?: when the update preserves the
selection predicate, searching the updated table finds the updated image of whatever
the search on the original table finds. -/
theorem find?_map_guard {α : Type} (p : α → Bool) (g : α → α)
    (hp : ∀ t, p (g t) = p t) (l : List α) :
    (l.map (fun t => if p t then g t else t)).find? p
      = (l.find? p).map (fun t => if p t then g t else t) := by
  induction l with
  | nil => rfl
  | cons a l ih =>
    by_cases h : p a
    · simp [List.find?_cons, h, hp]
    · simp only [Bool.not_eq_true] at h
      simp [List.find?_cons, h, ih]

/-- Applying a guarded pointwise update twice is the same as applying it once, when
the update preserves the selection predicate and is idempotent on selected rows. -/
theorem map_guard_idem {α : Type} (p : α → Bool) (g : α → α)
    (hp : ∀ t, p (g t) = p t) (hg : ∀ t, g (g t) = g t) (l : List α) :
    (l.map (fun t => if p t then g t else t)).map (fun t => if p t then g t else t)
      = l.map (fun t => if p t then g t else t) := by
  induction l with
  | nil => rfl
  | cons a l ih =>
    by_cases h : p a
    · simp [h, hp, hg, ih]
    · simp only [Bool.not_eq_true] at h
      simp [h, ih]

/-- A guarded pointwise update is the identity on a table in which no row is
selected. -/
theorem map_guard_of_find?_none {α : Type} (p : α → Bool) (g : α → α) (l : List α)
    (h : l.find? p = none) :
    l.map (fun t => if p t then g t else t) = l := by
  rw [List.find?_eq_none] at h
  calc l.map (fun t => if p t then g t else t)
      = l.map id := List.map_congr_left (fun a ha => by simp [h a ha])
    _ = l := List.map_id l

/-- C1: every admin endpoint is guarded: a request carrying no credential or an
invalid one fails with Unauthenticated (HTTP 401), a request carrying a valid
credential whose resolved role is not ADMIN fails with Forbidden (HTTP 403); the two
failures are distinguishable errors and in both cases the store comes back exactly
as it was, so no state lookup or mutation happened. -/
theorem admin_gate_rejects (c : Credential) (op : AdminOp) (st : Store) (r : Role) :
    ((c = .missing ∨ c = .invalid) →
      handleAdminRequest c op st = (.error .Unauthenticated, st)) ∧
    (c = .valid r → r ≠ .ADMIN →
      handleAdminRequest c op st = (.error .Forbidden, st)) ∧
    statusCode .Unauthenticated = 401 ∧
    statusCode .Forbidden = 403 ∧
    ApiError.Unauthenticated ≠ ApiError.Forbidden := by
  refine ⟨?_, ?_, rfl, rfl, by decide⟩
  · rintro (rfl | rfl) <;> rfl
  · rintro rfl hr
    cases r with
    | ADMIN => exact absurd rfl hr
    | STANDARD => rfl

/-- Witness for C1: a missing credential and a valid STANDARD credential against the
approve endpoint on an empty store. -/
theorem admin_gate_rejects_witness :
    handleAdminRequest .missing (.approveSvc 1) ⟨[], []⟩
      = (.error .Unauthenticated, ⟨[], []⟩) ∧
    handleAdminRequest (.valid .STANDARD) (.approveSvc 1) ⟨[], []⟩
      = (.error .Forbidden, ⟨[], []⟩) :=
  ⟨(admin_gate_rejects .missing (.approveSvc 1) ⟨[], []⟩ .STANDARD).1 (Or.inl rfl),
   (admin_gate_rejects (.valid .STANDARD) (.approveSvc 1) ⟨[], []⟩ .STANDARD).2.1 rfl
     (by decide)⟩

/-- C2: approve on an existing service, whatever its current approvalStatus, returns
the service with approvalStatus set to APPROVED; the user table is untouched, the
service table keeps its length, and every row keeps its id, name, providerName and
featured flag, with approvalStatus changed to APPROVED exactly on the matching row. -/
theorem approveService_sets_approved (st : Store) (serviceId : Nat) (s : Service)
    (h : findService st.services serviceId = some s) :
    (approveService st serviceId).1 = .ok { s with approvalStatus := .APPROVED } ∧
    (approveService st serviceId).2.users = st.users ∧
    (approveService st serviceId).2.services.length = st.services.length ∧
    ∀ i (hi : i < st.services.length)
      (hi2 : i < (approveService st serviceId).2.services.length),
      ((approveService st serviceId).2.services.get ⟨i, hi2⟩).id
          = (st.services.get ⟨i, hi⟩).id ∧
      ((approveService st serviceId).2.services.get ⟨i, hi2⟩).name
          = (st.services.get ⟨i, hi⟩).name ∧
      ((approveService st serviceId).2.services.get ⟨i, hi2⟩).providerName
          = (st.services.get ⟨i, hi⟩).providerName ∧
      ((approveService st serviceId).2.services.get ⟨i, hi2⟩).featured
          = (st.services.get ⟨i, hi⟩).featured ∧
      ((approveService st serviceId).2.services.get ⟨i, hi2⟩).approvalStatus
          = (if (st.services.get ⟨i, hi⟩).id == serviceId then .APPROVED
             else (st.services.get ⟨i, hi⟩).approvalStatus) := by
  unfold approveService
  rw [h]
  refine ⟨rfl, rfl, List.length_map _ _, ?_⟩
  intro i hi hi2
  simp only [List.get_eq_getElem, List.getElem_map]
  split <;> simp_all

/-- Witness for C2: the spec's concrete scenario, a store holding the single service
with id 1, approvalStatus PENDING and featured false; approve(1) returns the service
with approvalStatus APPROVED and featured still false. -/
theorem approveService_sets_approved_witness :
    (approveService ⟨[⟨1, "A", "P", .PENDING, false⟩], []⟩ 1).1
      = .ok ⟨1, "A", "P", .APPROVED, false⟩ ∧
    (approveService ⟨[⟨1, "A", "P", .PENDING, false⟩], []⟩ 1).2.users = [] :=
  ⟨(approveService_sets_approved ⟨[⟨1, "A", "P", .PENDING, false⟩], []⟩ 1
      ⟨1, "A", "P", .PENDING, false⟩ rfl).1,
   (approveService_sets_approved ⟨[⟨1, "A", "P", .PENDING, false⟩], []⟩ 1
      ⟨1, "A", "P", .PENDING, false⟩ rfl).2.1⟩

/-- C3: approve then reject on the same existing service leaves it REJECTED: the
reject call succeeds and returns the service with approvalStatus REJECTED, and in
the resulting store the matching row carries REJECTED while every other row keeps
its previous approvalStatus — the later transition overwrites the earlier one, no
state locks out a subsequent transition. -/
theorem approve_then_reject_rejected (st : Store) (serviceId : Nat) (s : Service)
    (h : findService st.services serviceId = some s) :
    (rejectService (approveService st serviceId).2 serviceId).1
      = .ok { s with approvalStatus := .REJECTED } ∧
    (rejectService (approveService st serviceId).2 serviceId).2.services.length
      = st.services.length ∧
    ∀ i (hi : i < st.services.length)
      (hi2 : i <
        (rejectService (approveService st serviceId).2 serviceId).2.services.length),
      ((rejectService (approveService st serviceId).2 serviceId).2.services.get
          ⟨i, hi2⟩).approvalStatus
        = (if (st.services.get ⟨i, hi⟩).id == serviceId then .REJECTED
           else (st.services.get ⟨i, hi⟩).approvalStatus) := by
  have h' : List.find? (fun t : Service => t.id == serviceId) st.services = some s := h
  have hs : (s.id == serviceId) = true :=
    List.find?_some (p := fun t : Service => t.id == serviceId) h'
  have happ : approveService st serviceId
      = (.ok { s with approvalStatus := .APPROVED },
         ⟨st.services.map (fun t =>
            if t.id == serviceId then { t with approvalStatus := ApprovalStatus.APPROVED }
            else t), st.users⟩) := by
    unfold approveService
    rw [h]
  have hfind2 : findService (st.services.map (fun t =>
      if t.id == serviceId then { t with approvalStatus := ApprovalStatus.APPROVED }
      else t)) serviceId = some { s with approvalStatus := ApprovalStatus.APPROVED } := by
    unfold findService
    rw [find?_map_guard (fun t => t.id == serviceId)
      (fun t => { t with approvalStatus := ApprovalStatus.APPROVED }) (fun t => rfl)
      st.services, h', Option.map_some', hs]
    rfl
  have hrej : rejectService ⟨st.services.map (fun t =>
      if t.id == serviceId then { t with approvalStatus := ApprovalStatus.APPROVED }
      else t), st.users⟩ serviceId
      = (.ok { s with approvalStatus := .REJECTED },
         ⟨(st.services.map (fun t =>
             if t.id == serviceId then { t with approvalStatus := ApprovalStatus.APPROVED }
             else t)).map (fun t =>
             if t.id == serviceId then { t with approvalStatus := ApprovalStatus.REJECTED }
             else t), st.users⟩) := by
    unfold rejectService
    simp only []
    rw [hfind2]
  rw [happ]
  simp only []
  rw [hrej]
  refine ⟨rfl, by simp, ?_⟩
  intro i hi hi2
  simp only [List.get_eq_getElem, List.getElem_map]
  split <;> simp

/-- Witness for C3: a one-service store with service 1 PENDING; after approve(1)
then reject(1) the reject call returns the service with approvalStatus REJECTED. -/
theorem approve_then_reject_rejected_witness :
    (rejectService (approveService ⟨[⟨1, "A", "P", .PENDING, false⟩], []⟩ 1).2 1).1
      = .ok ⟨1, "A", "P", .REJECTED, false⟩ :=
  (approve_then_reject_rejected ⟨[⟨1, "A", "P", .PENDING, false⟩], []⟩ 1
    ⟨1, "A", "P", .PENDING, false⟩ rfl).1

/-- C4: setFeatured on an existing service sets featured to exactly the given
boolean and returns the updated service; there is no precondition on the approval
state, the user table is untouched, and every row of the service table keeps its id,
name, providerName and approvalStatus, with featured changed to the given value
exactly on the matching row. -/
theorem toggleFeatured_sets_value (st : Store) (serviceId : Nat) (v : Bool)
    (s : Service) (h : findService st.services serviceId = some s) :
    (toggleFeaturedStatus st serviceId v).1 = .ok { s with featured := v } ∧
    (toggleFeaturedStatus st serviceId v).2.users = st.users ∧
    (toggleFeaturedStatus st serviceId v).2.services.length = st.services.length ∧
    ∀ i (hi : i < st.services.length)
      (hi2 : i < (toggleFeaturedStatus st serviceId v).2.services.length),
      ((toggleFeaturedStatus st serviceId v).2.services.get ⟨i, hi2⟩).id
          = (st.services.get ⟨i, hi⟩).id ∧
      ((toggleFeaturedStatus st serviceId v).2.services.get ⟨i, hi2⟩).name
          = (st.services.get ⟨i, hi⟩).name ∧
      ((toggleFeaturedStatus st serviceId v).2.services.get ⟨i, hi2⟩).providerName
          = (st.services.get ⟨i, hi⟩).providerName ∧
      ((toggleFeaturedStatus st serviceId v).2.services.get ⟨i, hi2⟩).approvalStatus
          = (st.services.get ⟨i, hi⟩).approvalStatus ∧
      ((toggleFeaturedStatus st serviceId v).2.services.get ⟨i, hi2⟩).featured
          = (if (st.services.get ⟨i, hi⟩).id == serviceId then v
             else (st.services.get ⟨i, hi⟩).featured) := by
  unfold toggleFeaturedStatus
  rw [h]
  refine ⟨rfl, rfl, List.length_map _ _, ?_⟩
  intro i hi hi2
  simp only [List.get_eq_getElem, List.getElem_map]
  split <;> simp_all

/-- Witness for C4: the spec's concrete scenario, a store holding the single service
with id 2, approvalStatus APPROVED and featured false; setFeatured(2, true) returns
the service with featured true and approvalStatus still APPROVED. -/
theorem toggleFeatured_sets_value_witness :
    (toggleFeaturedStatus ⟨[⟨2, "A", "P", .APPROVED, false⟩], []⟩ 2 true).1
      = .ok ⟨2, "A", "P", .APPROVED, true⟩ ∧
    (toggleFeaturedStatus ⟨[⟨2, "A", "P", .APPROVED, false⟩], []⟩ 2 true).2.users
      = [] :=
  ⟨(toggleFeatured_sets_value ⟨[⟨2, "A", "P", .APPROVED, false⟩], []⟩ 2 true
      ⟨2, "A", "P", .APPROVED, false⟩ rfl).1,
   (toggleFeatured_sets_value ⟨[⟨2, "A", "P", .APPROVED, false⟩], []⟩ 2 true
      ⟨2, "A", "P", .APPROVED, false⟩ rfl).2.1⟩

/-- C5: promote on an existing user whose role is STANDARD returns the updated user
with role ADMIN, keeping its id, name (for confirmation messaging) and email; the
service table is untouched and every user row keeps its id, name and email, with
role set to ADMIN exactly on the matching row. -/
theorem promote_sets_admin (st : Store) (userId : Nat) (u : User)
    (h : findUser st.users userId = some u) (hrole : u.role = .STANDARD) :
    (promoteUserToAdmin st userId).1 = .ok { u with role := .ADMIN } ∧
    ({ u with role := Role.ADMIN } : User).name = u.name ∧
    (promoteUserToAdmin st userId).2.services = st.services ∧
    (promoteUserToAdmin st userId).2.users.length = st.users.length ∧
    ∀ i (hi : i < st.users.length)
      (hi2 : i < (promoteUserToAdmin st userId).2.users.length),
      ((promoteUserToAdmin st userId).2.users.get ⟨i, hi2⟩).id
          = (st.users.get ⟨i, hi⟩).id ∧
      ((promoteUserToAdmin st userId).2.users.get ⟨i, hi2⟩).name
          = (st.users.get ⟨i, hi⟩).name ∧
      ((promoteUserToAdmin st userId).2.users.get ⟨i, hi2⟩).email
          = (st.users.get ⟨i, hi⟩).email ∧
      ((promoteUserToAdmin st userId).2.users.get ⟨i, hi2⟩).role
          = (if (st.users.get ⟨i, hi⟩).id == userId then .ADMIN
             else (st.users.get ⟨i, hi⟩).role) := by
  unfold promoteUserToAdmin
  rw [h]
  refine ⟨rfl, rfl, rfl, List.length_map _ _, ?_⟩
  intro i hi hi2
  simp only [List.get_eq_getElem, List.getElem_map]
  split <;> simp_all

/-- Witness for C5: the spec's concrete scenario, a store holding the single user
with id 5 and role STANDARD; promote(5) returns the user with role ADMIN and its
name intact. -/
theorem promote_sets_admin_witness :
    (promoteUserToAdmin ⟨[], [⟨5, "N", "e@x", .STANDARD⟩]⟩ 5).1
      = .ok ⟨5, "N", "e@x", .ADMIN⟩ :=
  (promote_sets_admin ⟨[], [⟨5, "N", "e@x", .STANDARD⟩]⟩ 5
    ⟨5, "N", "e@x", .STANDARD⟩ rfl rfl).1

/-- C6: on an id absent from the store, each command operation fails with NotFound
and returns the store exactly as it was — no partial mutation on the error path. -/
theorem notFound_no_mutation (st : Store) (i : Nat)
    (hs : findService st.services i = none)
    (hu : findUser st.users i = none) :
    approveService st i = (.error .NotFound, st) ∧
    rejectService st i = (.error .NotFound, st) ∧
    (∀ v, toggleFeaturedStatus st i v = (.error .NotFound, st)) ∧
    promoteUserToAdmin st i = (.error .NotFound, st) := by
  unfold approveService rejectService toggleFeaturedStatus promoteUserToAdmin
  rw [hs, hu]
  exact ⟨rfl, rfl, fun v => rfl, rfl⟩

/-- Witness for C6: on the empty store, every command on id 1 fails with NotFound
and leaves the store empty. -/
theorem notFound_no_mutation_witness :
    approveService ⟨[], []⟩ 1 = (.error .NotFound, ⟨[], []⟩) ∧
    rejectService ⟨[], []⟩ 1 = (.error .NotFound, ⟨[], []⟩) ∧
    toggleFeaturedStatus ⟨[], []⟩ 1 true = (.error .NotFound, ⟨[], []⟩) ∧
    promoteUserToAdmin ⟨[], []⟩ 1 = (.error .NotFound, ⟨[], []⟩) :=
  ⟨(notFound_no_mutation ⟨[], []⟩ 1 rfl rfl).1,
   (notFound_no_mutation ⟨[], []⟩ 1 rfl rfl).2.1,
   (notFound_no_mutation ⟨[], []⟩ 1 rfl rfl).2.2.1 true,
   (notFound_no_mutation ⟨[], []⟩ 1 rfl rfl).2.2.2⟩

/-- The store left by approve is always the guarded pointwise update of the service
table (on a miss the guarded update is the identity, matching the untouched store). -/
theorem approveService_snd (st : Store) (i : Nat) :
    (approveService st i).2 = ⟨st.services.map (fun t =>
      if t.id == i then { t with approvalStatus := ApprovalStatus.APPROVED } else t),
      st.users⟩ := by
  unfold approveService
  cases hf : findService st.services i with
  | none =>
      have hf' : List.find? (fun t : Service => t.id == i) st.services = none := hf
      rw [map_guard_of_find?_none (fun t => t.id == i)
        (fun t => { t with approvalStatus := ApprovalStatus.APPROVED }) st.services hf']
  | some s => rfl

/-- The store left by reject is always the guarded pointwise update of the service
table. -/
theorem rejectService_snd (st : Store) (i : Nat) :
    (rejectService st i).2 = ⟨st.services.map (fun t =>
      if t.id == i then { t with approvalStatus := ApprovalStatus.REJECTED } else t),
      st.users⟩ := by
  unfold rejectService
  cases hf : findService st.services i with
  | none =>
      have hf' : List.find? (fun t : Service => t.id == i) st.services = none := hf
      rw [map_guard_of_find?_none (fun t => t.id == i)
        (fun t => { t with approvalStatus := ApprovalStatus.REJECTED }) st.services hf']
  | some s => rfl

/-- The store left by setFeatured is always the guarded pointwise update of the
service table. -/
theorem toggleFeaturedStatus_snd (st : Store) (i : Nat) (v : Bool) :
    (toggleFeaturedStatus st i v).2 = ⟨st.services.map (fun t =>
      if t.id == i then { t with featured := v } else t), st.users⟩ := by
  unfold toggleFeaturedStatus
  cases hf : findService st.services i with
  | none =>
      have hf' : List.find? (fun t : Service => t.id == i) st.services = none := hf
      rw [map_guard_of_find?_none (fun t => t.id == i)
        (fun t => { t with featured := v }) st.services hf']
  | some s => rfl

/-- The store left by promote is always the guarded pointwise update of the user
table. -/
theorem promoteUserToAdmin_snd (st : Store) (i : Nat) :
    (promoteUserToAdmin st i).2 = ⟨st.services, st.users.map (fun t =>
      if t.id == i then { t with role := Role.ADMIN } else t)⟩ := by
  unfold promoteUserToAdmin
  cases hf : findUser st.users i with
  | none =>
      have hf' : List.find? (fun t : User => t.id == i) st.users = none := hf
      rw [map_guard_of_find?_none (fun t => t.id == i)
        (fun t => { t with role := Role.ADMIN }) st.users hf']
  | some u => rfl

/-- C8: every mutation endpoint is idempotent on the store: approving twice,
rejecting twice, setting featured to the same boolean twice, and promoting twice
leave the store exactly as a single application does. -/
theorem mutations_idempotent (st : Store) (i : Nat) (v : Bool) :
    (approveService (approveService st i).2 i).2 = (approveService st i).2 ∧
    (rejectService (rejectService st i).2 i).2 = (rejectService st i).2 ∧
    (toggleFeaturedStatus (toggleFeaturedStatus st i v).2 i v).2
      = (toggleFeaturedStatus st i v).2 ∧
    (promoteUserToAdmin (promoteUserToAdmin st i).2 i).2
      = (promoteUserToAdmin st i).2 := by
  refine ⟨?_, ?_, ?_, ?_⟩
  · rw [approveService_snd, approveService_snd]
    simp only []
    exact congrArg (fun l => Store.mk l st.users)
      (map_guard_idem (fun t => t.id == i)
        (fun t => { t with approvalStatus := ApprovalStatus.APPROVED })
        (fun t => rfl) (fun t => rfl) st.services)
  · rw [rejectService_snd, rejectService_snd]
    simp only []
    exact congrArg (fun l => Store.mk l st.users)
      (map_guard_idem (fun t => t.id == i)
        (fun t => { t with approvalStatus := ApprovalStatus.REJECTED })
        (fun t => rfl) (fun t => rfl) st.services)
  · rw [toggleFeaturedStatus_snd, toggleFeaturedStatus_snd]
    simp only []
    exact congrArg (fun l => Store.mk l st.users)
      (map_guard_idem (fun t => t.id == i)
        (fun t => { t with featured := v })
        (fun t => rfl) (fun t => rfl) st.services)
  · rw [promoteUserToAdmin_snd, promoteUserToAdmin_snd]
    simp only []
    exact congrArg (fun l => Store.mk st.services l)
      (map_guard_idem (fun t => t.id == i)
        (fun t => { t with role := Role.ADMIN })
        (fun t => rfl) (fun t => rfl) st.users)

/-- A single admin operation never shrinks or reorders the user table: the length
is preserved, every row keeps its id, and a row whose role is ADMIN still has role
ADMIN afterwards. -/
theorem runOp_users_stable (op : AdminOp) (st : Store) :
    (runOp op st).2.users.length = st.users.length ∧
    ∀ i (hi2 : i < (runOp op st).2.users.length) (hi : i < st.users.length),
      ((runOp op st).2.users.get ⟨i, hi2⟩).id = (st.users.get ⟨i, hi⟩).id ∧
      ((st.users.get ⟨i, hi⟩).role = .ADMIN →
        ((runOp op st).2.users.get ⟨i, hi2⟩).role = .ADMIN) := by
  cases op with
  | listServices => exact ⟨rfl, fun i hi2 hi => ⟨rfl, fun hh => hh⟩⟩
  | listUsers => exact ⟨rfl, fun i hi2 hi => ⟨rfl, fun hh => hh⟩⟩
  | getService j => exact ⟨rfl, fun i hi2 hi => ⟨rfl, fun hh => hh⟩⟩
  | approveSvc j =>
      simp only [runOp]
      rw [approveService_snd]
      exact ⟨rfl, fun i hi2 hi => ⟨rfl, fun hh => hh⟩⟩
  | rejectSvc j =>
      simp only [runOp]
      rw [rejectService_snd]
      exact ⟨rfl, fun i hi2 hi => ⟨rfl, fun hh => hh⟩⟩
  | featureSvc j v =>
      simp only [runOp]
      rw [toggleFeaturedStatus_snd]
      exact ⟨rfl, fun i hi2 hi => ⟨rfl, fun hh => hh⟩⟩
  | promoteUsr j =>
      simp only [runOp]
      rw [promoteUserToAdmin_snd]
      refine ⟨by simp, ?_⟩
      intro i hi2 hi
      simp only [List.get_eq_getElem, List.getElem_map]
      constructor
      · split <;> rfl
      · intro hh
        split
        · rfl
        · exact hh

/-- User-table stability extends to any sequence of admin operations. -/
theorem runOps_users_stable (ops : List AdminOp) (st : Store) :
    (runOps ops st).users.length = st.users.length ∧
    ∀ i (hi2 : i < (runOps ops st).users.length) (hi : i < st.users.length),
      ((runOps ops st).users.get ⟨i, hi2⟩).id = (st.users.get ⟨i, hi⟩).id ∧
      ((st.users.get ⟨i, hi⟩).role = .ADMIN →
        ((runOps ops st).users.get ⟨i, hi2⟩).role = .ADMIN) := by
  induction ops generalizing st with
  | nil => exact ⟨rfl, fun i hi2 hi => ⟨rfl, fun hh => hh⟩⟩
  | cons op ops ih =>
      have hstep := runOp_users_stable op st
      have hrec := ih (runOp op st).2
      have hrun : runOps (op :: ops) st = runOps ops (runOp op st).2 := rfl
      rw [hrun]
      refine ⟨hrec.1.trans hstep.1, ?_⟩
      intro i hi2 hi
      have hmid : i < (runOp op st).2.users.length := by
        rw [hstep.1]; exact hi
      have h1 := hrec.2 i hi2 hmid
      have h2 := hstep.2 i hmid hi
      exact ⟨h1.1.trans h2.1, fun hh => h1.2 (h2.2 hh)⟩

/-- Overwriting an ADMIN role with ADMIN returns the very same user record. -/
theorem promoteRole_noop (u : User) (h : u.role = .ADMIN) :
    ({ u with role := Role.ADMIN } : User) = u := by
  rcases u with ⟨a, b, c, r⟩
  exact congrArg (User.mk a b c) (Eq.symm (h : r = Role.ADMIN))

/-- C7: role promotion is one-way across the exposed admin surface: after any
sequence of admin operations a user row that was ADMIN still has role ADMIN (and
keeps its id and position); and promoting an already-ADMIN user whose id is unique
is an idempotent no-op success — it returns the user unchanged and leaves the store
exactly as it was, never a re-applied mutation. -/
theorem promotion_one_way (ops : List AdminOp) (st : Store) (i : Nat)
    (hi : i < st.users.length) (hadm : (st.users.get ⟨i, hi⟩).role = .ADMIN)
    (uid : Nat) (u : User)
    (hnodup : (st.users.map User.id).Nodup)
    (hfound : findUser st.users uid = some u) (hu : u.role = .ADMIN) :
    ((runOps ops st).users.length = st.users.length ∧
     ∀ hi2 : i < (runOps ops st).users.length,
       ((runOps ops st).users.get ⟨i, hi2⟩).id = (st.users.get ⟨i, hi⟩).id ∧
       ((runOps ops st).users.get ⟨i, hi2⟩).role = .ADMIN) ∧
    promoteUserToAdmin st uid = (.ok u, st) := by
  constructor
  · exact ⟨(runOps_users_stable ops st).1,
      fun hi2 => ⟨((runOps_users_stable ops st).2 i hi2 hi).1,
        ((runOps_users_stable ops st).2 i hi2 hi).2 hadm⟩⟩
  · have hfound' : List.find? (fun t : User => t.id == uid) st.users = some u := hfound
    have humem : u ∈ st.users := List.mem_of_find?_eq_some hfound'
    have huid : (u.id == uid) = true :=
      List.find?_some (p := fun t : User => t.id == uid) hfound'
    have hmap : st.users.map (fun t =>
        if t.id == uid then { t with role := Role.ADMIN } else t) = st.users := by
      refine (List.map_congr_left ?_).trans (List.map_id st.users)
      intro t ht
      by_cases htid : (t.id == uid) = true
      · have hteq : t = u := by
          apply List.inj_on_of_nodup_map hnodup ht humem
          have h1 : t.id = uid := by simpa using htid
          have h2 : u.id = uid := by simpa using huid
          rw [h1, h2]
        subst hteq
        rw [if_pos htid]
        exact (promoteRole_noop t hu).trans rfl
      · rw [if_neg htid]
        rfl
    unfold promoteUserToAdmin
    rw [hfound]
    have hgoal : (Except.ok { u with role := Role.ADMIN },
        (⟨st.services, st.users.map (fun t =>
          if t.id == uid then { t with role := Role.ADMIN } else t)⟩ : Store))
        = ((Except.ok u : Except ApiError User), st) := by
      rw [promoteRole_noop u hu, hmap]
    exact hgoal

/-- Witness for C7: a store with the single admin user 7; a sequence of approve,
promote and reject operations leaves user 7 with role ADMIN, and promote(7) is a
no-op success returning the user unchanged. -/
theorem promotion_one_way_witness :
    (runOps [.approveSvc 1, .promoteUsr 7, .rejectSvc 1]
        ⟨[], [⟨7, "N", "e@x", .ADMIN⟩]⟩).users.length = 1 ∧
    promoteUserToAdmin ⟨[], [⟨7, "N", "e@x", .ADMIN⟩]⟩ 7
      = (.ok ⟨7, "N", "e@x", .ADMIN⟩, ⟨[], [⟨7, "N", "e@x", .ADMIN⟩]⟩) :=
  ⟨(promotion_one_way [.approveSvc 1, .promoteUsr 7, .rejectSvc 1]
      ⟨[], [⟨7, "N", "e@x", .ADMIN⟩]⟩ 0 (by decide) rfl 7 ⟨7, "N", "e@x", .ADMIN⟩
      (by simp) rfl rfl).1.1,
   (promotion_one_way [.approveSvc 1, .promoteUsr 7, .rejectSvc 1]
      ⟨[], [⟨7, "N", "e@x", .ADMIN⟩]⟩ 0 (by decide) rfl 7 ⟨7, "N", "e@x", .ADMIN⟩
      (by simp) rfl rfl).2⟩

/-- C9: the status-to-badge-variant mapping is a total deterministic function on
strings: success exactly on APPROVED, default exactly on PENDING, destructive
exactly on REJECTED, and secondary on every other string, so rendering never fails
on an unrecognised approval status. -/
theorem statusVariant_total (s : String) :
    (getStatusVariant s = "success" ↔ s = "APPROVED") ∧
    (getStatusVariant s = "default" ↔ s = "PENDING") ∧
    (getStatusVariant s = "destructive" ↔ s = "REJECTED") ∧
    (s ≠ "APPROVED" → s ≠ "PENDING" → s ≠ "REJECTED" →
      getStatusVariant s = "secondary") := by
  unfold getStatusVariant
  split_ifs with h1 h2 h3 <;> simp_all

/-- Witness for C9: an unrecognised status string maps to secondary. -/
theorem statusVariant_total_witness :
    getStatusVariant "UNKNOWN" = "secondary" :=
  (statusVariant_total "UNKNOWN").2.2.2 (by decide) (by decide) (by decide)

/-- C10: in the rendered user-management table a row whose user has role ADMIN
contains no promote action, and the promote button is rendered exactly for users
whose role is not ADMIN — re-promotion of an admin cannot be triggered from this
interface. -/
theorem promote_button_not_for_admin (u : User) (users : List User) :
    (u.role = .ADMIN → renderUserRowActions u = []) ∧
    (u.role ≠ .ADMIN → renderUserRowActions u = [RowAction.promoteAction u.id]) ∧
    ∀ i (hi : i < users.length), (users.get ⟨i, hi⟩).role = .ADMIN →
      ∀ hi2 : i < (renderUserTable users).length,
        (renderUserTable users).get ⟨i, hi2⟩ = [] := by
  refine ⟨?_, ?_, ?_⟩
  · intro h
    unfold renderUserRowActions
    rw [if_neg (by simp [h])]
  · intro h
    unfold renderUserRowActions
    rw [if_pos h]
  · intro i hi h hi2
    have h' : users[i].role = Role.ADMIN := h
    unfold renderUserTable
    simp only [List.get_eq_getElem, List.getElem_map]
    unfold renderUserRowActions
    rw [if_neg (by simp [h'])]

/-- Witness for C10: an admin row renders no action, a standard row renders the
promote button. -/
theorem promote_button_not_for_admin_witness :
    renderUserRowActions ⟨1, "A", "a@x", .ADMIN⟩ = [] ∧
    renderUserRowActions ⟨2, "B", "b@x", .STANDARD⟩ = [RowAction.promoteAction 2] :=
  ⟨(promote_button_not_for_admin ⟨1, "A", "a@x", .ADMIN⟩ []).1 rfl,
   (promote_button_not_for_admin ⟨2, "B", "b@x", .STANDARD⟩ []).2.1 (by decide)⟩

end ReviewSite
